import Mathlib

/-!
Shallow embedding of the measurement-loop and server-selection subsystem of
prometheus-speedtest-exporter (main.go).  Pure text processing (line
splitting, the server-list regular expression, the Fscanf-based stderr
classification, JSON decoding) is embedded as executable Lean functions;
the controller loop body is embedded as a pure cycle function over an
explicit snapshot state, with the outcomes of the two subprocess
invocations (server discovery and measurement) passed in as parameters.
-/

namespace SpeedtestExporter

/-! ### Characters, digits and line splitting -/

/-- Character is an ASCII decimal digit, the meaning of the RE2 class
backslash-d used by serverListRegexp. -/
def isDigit (c : Char) : Bool :=
  '0' ≤ c && c ≤ '9'

/-- Numeric value of a string of decimal digits (most significant first). -/
def natOfDigits (ds : List Char) : Nat :=
  ds.foldl (fun acc c => 10 * acc + (c.toNat - '0'.toNat)) 0

/-- Split a character stream at every newline character.  Yields one segment
per newline plus the final segment, so the result is always nonempty. -/
def splitOnNl : List Char → List (List Char)
  | [] => [[]]
  | c :: rest =>
      if c = '\n' then [] :: splitOnNl rest
      else
        match splitOnNl rest with
        | [] => [[c]]
        | l :: ls => (c :: l) :: ls

/-- Strip one trailing carriage return, as bufio.ScanLines' dropCR does. -/
def dropCR (cs : List Char) : List Char :=
  match cs.reverse with
  | '\r' :: rest => rest.reverse
  | _ => cs

/-- bufio.MaxScanTokenSize: a bufio.Scanner's buffer grows to at most this
many bytes, so a segment this long or longer (its newline not yet in the
full buffer, for the final segment the end of input not yet seen) makes
Scan fail with ErrTooLong before yielding it. -/
def maxScanTokenSize : Nat := 65536

/-- The UTF-8 byte length of a segment — the Scanner buffers bytes, not
runes. -/
def utf8Len (cs : List Char) : Nat :=
  (cs.map Char.utf8Size).sum

/-- Models a bufio.Scanner with the default ScanLines split function reading
the whole buffered stream: tokens are the newline-separated segments, each
with a trailing carriage return stripped; a trailing newline does not yield
a final empty token, and an empty stream yields no tokens.  A segment of
maxScanTokenSize bytes or more overflows the scanner's buffer: Scan stops
with ErrTooLong there, so that segment and everything after it are never
yielded (the source checks scanner.Err() at most to log it). -/
def goLines (cs : List Char) : List (List Char) :=
  let parts := splitOnNl cs
  let parts := if parts.getLast? = some [] then parts.dropLast else parts
  (parts.takeWhile fun l => utf8Len l < maxScanTokenSize).map dropCR

/-! ### The server-list regular expression

serverListRegexp = `(\d+)\) (.+) [[](\d+\.\d+) km[]]`, i.e. literally
digits, then ") ", then a nonempty free-text group, then " [", then
digits "." digits, then " km]".  FindStringSubmatch finds the leftmost
match anywhere in the line (the pattern is unanchored), with the leftmost
start position preferred and each quantifier greedy.  For this concrete
pattern the two digit runs are forced (a maximal digit run is the only one
that can be followed by the non-digit literal that comes next), so the only
real choice is the greedy extent of the `.+` name group. -/

/-- Capture groups of one match of serverListRegexp:
group 1 (the ID digits), group 2 (the name), and group 3 split at its
decimal point (integer-part digits, fraction digits). -/
structure ServerLineMatch where
  idDigits : List Char
  name : List Char
  distIntDigits : List Char
  distFracDigits : List Char
deriving DecidableEq, Repr

/-- Parse the tail `" [" digits "." digits " km]" anything` that must follow
the name group; returns the two digit groups of the distance. -/
def distTail : List Char → Option (List Char × List Char)
  | ' ' :: '[' :: rest =>
      let d1 := rest.takeWhile isDigit
      let r1 := rest.dropWhile isDigit
      if d1 = [] then none
      else
        match r1 with
        | '.' :: r2 =>
            let d2 := r2.takeWhile isDigit
            let r3 := r2.dropWhile isDigit
            if d2 = [] then none
            else
              match r3 with
              | ' ' :: 'k' :: 'm' :: ']' :: _ => some (d1, d2)
              | _ => none
        | _ => none
  | _ => none

/-- Greedy choice of the `.+` name group: try the longest prefix of `rest`
first (the regular expression's `.` cannot match a newline), requiring the
distance tail to parse right after it. -/
def findNameSplit (rest : List Char) : Nat → Option (List Char × List Char × List Char)
  | 0 => none
  | k + 1 =>
      let name := rest.take (k + 1)
      match distTail (rest.drop (k + 1)) with
      | some (d1, d2) =>
          if name.all (fun c => c ≠ '\n') then some (name, d1, d2)
          else findNameSplit rest k
      | none => findNameSplit rest k

/-- One match of serverListRegexp beginning exactly at the head of `cs`. -/
def matchHere (cs : List Char) : Option ServerLineMatch :=
  let d := cs.takeWhile isDigit
  let r1 := cs.dropWhile isDigit
  if d = [] then none
  else
    match r1 with
    | ')' :: ' ' :: rest =>
        match findNameSplit rest rest.length with
        | some (name, d1, d2) => some ⟨d, name, d1, d2⟩
        | none => none
    | _ => none

/-- Leftmost match of serverListRegexp anywhere in the line, as
FindStringSubmatch computes it: the smallest start position admitting a
match wins, and at that position the greedy preferences of matchHere
apply. -/
def findServerMatch : List Char → Option ServerLineMatch
  | [] => none
  | c :: rest =>
      match matchHere (c :: rest) with
      | some m => some m
      | none => findServerMatch rest

/-! ### Number conversion -/

/-- Largest value of a signed 64-bit integer, the bound strconv.ParseInt
with bitSize 64 enforces. -/
def int64Max : Nat := 9223372036854775807

/-- Models strconv.ParseInt(s, 10, 64) on the digit-only group 1 string:
the numeric value when it fits in int64, none (an error) otherwise. -/
def parseInt64Digits (ds : List Char) : Option Int :=
  let n := natOfDigits ds
  if n ≤ int64Max then some (Int.ofNat n) else none

/-! strconv.ParseFloat(s, 64) returns the nearest float64 of the decimal,
rounding ties to even, and reports ErrRange exactly when that rounding
(with unbounded exponent) reaches 2^1024, i.e. +Inf.  The rounding is
modeled exactly over the decimal's numerator/denominator pair, with the
rounded float represented as a mantissa/shift pair so that every
comparison and truncation below is plain natural-number arithmetic. -/

/-- Does 2^e ≤ n/d hold (n, d ≥ 1), for an integer exponent e. -/
def pow2LEDiv (e : Int) (n d : Nat) : Bool :=
  match e with
  | .ofNat k => 2 ^ k * d ≤ n
  | .negSucc k => d ≤ 2 ^ (k + 1) * n

/-- Floor base-2 logarithm by repeated halving.  The fuel only bounds the
recursion (Nat.log2 itself is well-founded recursion, which the kernel
cannot evaluate): any fuel ≥ log2 n yields the exact value. -/
def log2Fuel : Nat → Nat → Nat
  | 0, _ => 0
  | fuel + 1, n => if 2 ≤ n then log2Fuel fuel (n / 2) + 1 else 0

/-- Step g down until 2^g ≤ n/d; since 2^g ≤ n/d holds exactly for g up to
the floor logarithm, starting at or above it lands on it exactly.  The
fuel only bounds the recursion. -/
def floorLog2DivGo : Nat → Int → Nat → Nat → Int
  | 0, g, _, _ => g
  | fuel + 1, g, n, d => if pow2LEDiv g n d then g else floorLog2DivGo fuel (g - 1) n d

/-- The exponent e with 2^e ≤ n/d < 2^(e+1), for n, d ≥ 1: step down from
the upper bound log2 n (d ≥ 1, so e ≤ log2 n).  Exact whenever
fuel ≥ log2 n and fuel ≥ log2 d (at most log2 n + log2 d + 1 down-steps
are needed to reach e ≥ -(log2 d + 1)). -/
def floorLog2Div (fuel : Nat) (n d : Nat) : Int :=
  floorLog2DivGo (2 * fuel + 4) (log2Fuel fuel n) n d

/-- Round the nonnegative rational n/d to the nearest float64 (ties to
even) with unbounded exponent range: 53 significant bits at the value's
own scale for values in or above the normal range, and the fixed absolute
precision 2^-1074 below it (the subnormal range).  The result (m, s)
denotes the exact rounded value m * 2^(-s).  The fuel is passed to the
exponent search and is exact whenever fuel ≥ log2 n and ≥ log2 d. -/
def roundFloat64Pos (fuel : Nat) (n d : Nat) : Nat × Int :=
  if n = 0 then (0, 0)
  else
    let e := floorLog2Div fuel n d
    let s : Int := if e < -1022 then 1074 else 52 - e
    let num := match s with | .ofNat k => n * 2 ^ k | .negSucc _ => n
    let den := match s with | .ofNat _ => d | .negSucc k => d * 2 ^ (k + 1)
    let m0 := num / den
    let r := num % den
    let m := if 2 * r < den then m0
             else if den < 2 * r then m0 + 1
             else if m0 % 2 = 0 then m0 else m0 + 1
    (m, s)

/-- Is the rounded value m * 2^(-s) at least `bound`. -/
def floatGE (f : Nat × Int) (bound : Nat) : Bool :=
  match f.2 with
  | .ofNat k => bound * 2 ^ k ≤ f.1
  | .negSucc k => bound ≤ f.1 * 2 ^ (k + 1)

/-- Go's int(...) conversion of the nonnegative float m * 2^(-s):
truncation toward zero (integer division by the power of two). -/
def floatTrunc (f : Nat × Int) : Nat :=
  match f.2 with
  | .ofNat k => f.1 / 2 ^ k
  | .negSucc k => f.1 * 2 ^ (k + 1)

/-- 2^1024 as a literal: the overflow threshold of float64 (a rounded
value reaching it is +Inf, which ParseFloat reports as ErrRange).
See twoPow1024_eq. -/
def twoPow1024 : Nat :=
  179769313486231590772930519078902473361797697894230657273430081157732675805500963132708477322407536021120113879871393357658789768814416622492847430639474124377767893424865485276302219601246094119453082952085005768838150682342462881473913110540827237163350510684586298239947245938479716304835356329624224137216

/-- 2^63 as a literal: from this value on, Go's int(float64) conversion is
no longer defined by the language (see parseDistanceKm). -/
def twoPow63 : Nat := 9223372036854775808

/-- The float64 nearest to the matched group 3 decimal (shape
digits "." digits), i.e. ParseFloat's result.  The numerator is below
10^(digit count), whose base-2 logarithm is below 4 times the digit
count, so the fuel passed to the exponent search is always sufficient. -/
def distFloat (dInt dFrac : List Char) : Nat × Int :=
  roundFloat64Pos (4 * (dInt.length + dFrac.length) + 8)
    (natOfDigits dInt * 10 ^ dFrac.length + natOfDigits dFrac)
    (10 ^ dFrac.length)

/-- Models strconv.ParseFloat on the matched group 3 decimal followed by
Go's int(...) conversion.  ParseFloat's ErrRange failure (the decimal
rounds to +Inf) is the error path; otherwise the float is truncated toward
zero.  For floats at or above 2^63 Go's int conversion is
implementation-defined (amd64 yields the minimum int64); the model returns
the mathematical truncation there, and every theorem below restricts to
floats below 2^63, where the program and the model agree on every
platform. -/
def parseDistanceKm (dInt dFrac : List Char) : Option Int :=
  if floatGE (distFloat dInt dFrac) twoPow1024 then none
  else some (Int.ofNat (floatTrunc (distFloat dInt dFrac)))

/-! ### getServers' stdout parsing loop -/

/-- One server descriptor, struct SpeedtestServer in the source.  ID and
DistanceKm are Go ints, assumed 64-bit, so int(serverID) is the identity
on every value ParseInt accepts. -/
structure SpeedtestServer where
  ID : Int
  Name : String
  DistanceKm : Int
deriving DecidableEq, Repr

/-- The errors getServers' stdout parsing can produce: errors.New "no
servers found", or the "failed to parse integer string %q" wrapper around a
strconv range failure (the source uses the same message for both numeric
groups). -/
inductive GetServersError where
  | noServersFound
  | numParseError (group : String)
deriving DecidableEq, Repr

/-- Per-line step of getServers' loop: none when serverListRegexp does not
match the line (the line is skipped), otherwise the descriptor built from
the three capture groups or the numeric-conversion error. -/
def parseServerLine (line : List Char) : Option (Except GetServersError SpeedtestServer) :=
  match findServerMatch line with
  | none => none
  | some m =>
      match parseInt64Digits m.idDigits with
      | none => some (.error (.numParseError (String.mk m.idDigits)))
      | some id =>
          match parseDistanceKm m.distIntDigits m.distFracDigits with
          | none => some (.error (.numParseError (String.mk (m.distIntDigits ++ '.' :: m.distFracDigits))))
          | some dist => some (.ok ⟨id, String.mk m.name, dist⟩)

/-- getServers' scan over the stdout lines, carrying the servers
accumulated so far and failing fast at the first numeric-conversion
error, exactly as the source's loop does. -/
def getServersLoop : List (List Char) → List SpeedtestServer → Except GetServersError (List SpeedtestServer)
  | [], acc => .ok acc
  | l :: ls, acc =>
      match parseServerLine l with
      | none => getServersLoop ls acc
      | some (.error e) => .error e
      | some (.ok s) => getServersLoop ls (acc ++ [s])

/-- The stdout-parsing part of getServers (source lines 178-206): scan the
captured stdout line by line, collect one SpeedtestServer per matching
line, and fail with "no servers found" when nothing was collected
(including on empty input). -/
def getServersParse (out : String) : Except GetServersError (List SpeedtestServer) :=
  match getServersLoop (goLines out.toList) [] with
  | .error e => .error e
  | .ok servers => if servers.isEmpty then .error .noServersFound else .ok servers

/-- The descriptor a matched line yields: ID is the numeric value of the
ID digits, DistanceKm is the truncation toward zero of the float64 nearest
to the matched decimal (which equals the floor of the decimal itself
whenever the float64 rounding does not carry the value across an integer
boundary — always the case for short distances like speedtest-cli's). -/
def descrOfMatch (m : ServerLineMatch) : SpeedtestServer :=
  ⟨Int.ofNat (natOfDigits m.idDigits), String.mk m.name,
   Int.ofNat (floatTrunc (distFloat m.distIntDigits m.distFracDigits))⟩

/-! ### Stderr classification: the Fscanf "ERROR: HTTP Error %d: %s\n" scan

On a failed run, speedtest and getServers scan each stderr line with
fmt.Fscanf and the format string "ERROR: HTTP Error %d: %s\n", treating a
line as an HTTP-error line only when both operands are assigned and no
format-matching error occurred (n == 2 and err == nil).  fmt's documented
rules: a non-space format character consumes exactly that input character;
a run of format spaces consumes as many input spaces as possible and must
consume at least one or find the end of input; the final format newline
consumes zero or more spaces followed by a newline or the end of input;
%d skips leading spaces and reads an optionally signed decimal integer;
%s skips leading spaces and reads a maximal nonempty run of non-space
characters.  "Space" here is whitespace other than newline; the ASCII
space characters are modeled. -/

/-- Whitespace other than newline, as fmt's scanner treats it when
newlines are significant: fmt/scan.go's space table (U+0009-U+000D,
U+0020, U+0085, U+00A0, U+1680, U+2000-U+200A, U+2028, U+2029, U+202F,
U+205F, U+3000) minus the newline U+000A, which the Scanf format rules
handle separately. -/
def isScanSpace (c : Char) : Bool :=
  let n := c.toNat
  (9 ≤ n && n ≤ 13 && !(n == 10)) || n == 32 || n == 133 || n == 160 ||
    n == 5760 || (8192 ≤ n && n ≤ 8202) || n == 8232 || n == 8233 ||
    n == 8239 || n == 8287 || n == 12288

/-- Consume spaces (never a newline). -/
def skipSpaces (cs : List Char) : List Char :=
  cs.dropWhile isScanSpace

/-- Consume exactly the literal non-space format characters `lit`. -/
def scanLit : List Char → List Char → Option (List Char)
  | [], cs => some cs
  | _ :: _, [] => none
  | l :: ls, c :: cs => if c = l then scanLit ls cs else none

/-- A run of spaces in the format: consumes one or more input spaces, or
succeeds consuming nothing at the end of the input. -/
def scanFmtSpace (cs : List Char) : Option (List Char) :=
  match cs with
  | [] => some []
  | c :: rest => if isScanSpace c then some (skipSpaces rest) else none

/-- The %d verb: skip spaces, then an optionally signed nonempty digit
run, read in base 10. -/
def scanVerbD (cs : List Char) : Option (Int × List Char) :=
  let cs := skipSpaces cs
  let signed : Bool × List Char :=
    match cs with
    | '-' :: rest => (true, rest)
    | '+' :: rest => (false, rest)
    | _ => (false, cs)
  let ds := signed.2.takeWhile isDigit
  let rest := signed.2.dropWhile isDigit
  if ds = [] then none
  else some (if signed.1 then -(Int.ofNat (natOfDigits ds)) else Int.ofNat (natOfDigits ds), rest)

/-- The %s verb: skip spaces, then a maximal nonempty run of characters
that are neither spaces nor newlines. -/
def scanVerbS (cs : List Char) : Option (List Char × List Char) :=
  let cs := skipSpaces cs
  let tok := cs.takeWhile fun c => !(isScanSpace c || c == '\n')
  if tok = [] then none else some (tok, cs.drop tok.length)

/-- The trailing format newline: zero or more spaces followed by a newline
or the end of the input. -/
def scanFmtNl (cs : List Char) : Bool :=
  match skipSpaces cs with
  | [] => true
  | c :: _ => c = '\n'

/-- Fscanf with format "ERROR: HTTP Error %d: %s\n" applied to one stderr
line, returning the scanned HTTP status code exactly when both operands
are assigned and the whole format matches (n == 2 and err == nil in the
source). -/
def fscanfHTTPError (line : List Char) : Option Int := do
  let r ← scanLit "ERROR:".toList line
  let r ← scanFmtSpace r
  let r ← scanLit "HTTP".toList r
  let r ← scanFmtSpace r
  let r ← scanLit "Error".toList r
  let r ← scanFmtSpace r
  let (code, r) ← scanVerbD r
  let r ← scanLit ":".toList r
  let r ← scanFmtSpace r
  let (_msg, r) ← scanVerbS r
  if scanFmtNl r then some code else none

/-- How a failed subprocess run is classified by the stderr scan shared by
speedtest (source lines 99-123) and getServers (lines 152-177): the
retryable errRetryable403 when some stderr line scans as an HTTP error
with code 403, otherwise the generic wrapped execution failure.  The exit
status plays no further part in the classification. -/
inductive RunFailure where
  | retryable403
  | genericFailure
deriving DecidableEq, Repr

/-- Classify the captured stderr of a failed run. -/
def classifyFailedRun (stderr : String) : RunFailure :=
  if (goLines stderr.toList).any (fun l => fscanfHTTPError l = some 403) then
    .retryable403
  else
    .genericFailure

/-! ### speedtest's argument construction (source lines 78-94) -/

/-- The range loop of speedtest's argument construction, carrying the
argument list so far and the usingServerIDs flag: every nonzero server ID
appends "--server" and its decimal rendering and raises the flag; IDs
equal to 0 are skipped. -/
def speedtestArgsLoop : List Int → List String × Bool → List String × Bool
  | [], st => st
  | serverID :: rest, st =>
      speedtestArgsLoop rest
        (if serverID ≠ 0 then (st.1 ++ ["--server", toString serverID], true) else st)

/-- Build the argument list of the measurement invocation: "--json", then
the server arguments, and "--secure" only when insecure mode is off and no
nonzero server ID was given (with server IDs the source disables
"--secure" and only logs a warning). -/
def speedtestArgs (serverIDs : List Int) (insecure : Bool) : List String :=
  let st := speedtestArgsLoop serverIDs (["--json"], false)
  if ¬ insecure ∧ ¬ st.2 then st.1 ++ ["--secure"] else st.1

/-! ### The server selector (main, source lines 299-313) -/

/-- Result of filtering the discovered servers: the ordered candidate ID
list, or the no-match condition that sends the controller to its
setError-and-retry path. -/
inductive SelectorOutcome where
  | ok (ids : List Int)
  | noServerMatch
deriving DecidableEq, Repr

/-- The filtering main performs on the discovered server list: when a
server regular expression is configured (the -R flag is nonempty), keep
the servers whose Name it matches; then, when the -m flag is positive,
keep the servers with DistanceKm at most that maximum; project the
survivors to their IDs in order; an empty ID list is the no-match
condition.  The compiled regular expression is abstracted as the
predicate `nameMatches`. -/
def selectCandidates (regexpFlag : String) (nameMatches : String → Bool)
    (maxDistance : Int) (allServers : List SpeedtestServer) : SelectorOutcome :=
  let afterName :=
    if regexpFlag ≠ "" then allServers.filter (fun s => nameMatches s.Name) else allServers
  let afterDist :=
    if 0 < maxDistance then afterName.filter (fun s => s.DistanceKm ≤ maxDistance) else afterName
  let serverIDs := afterDist.map (fun s => s.ID)
  if serverIDs.isEmpty then .noServerMatch else .ok serverIDs

/-! ### The metric snapshot and its publishers

The two registered metrics are modeled as explicit state: the GaugeVec
speedtest_speed_bits_per_second as an association list from its 7-element
label-value vector (direction, client_ip, client_isp, client_country,
server_sponsor, server_host, server_country) to the gauge value, and the
plain gauge speedtest_ping_msec as a single value.  WithLabelValues(...)
.Set(v) upserts one label combination; Reset() deletes every combination.
float64 gauge values are modeled as exact rationals (every claim only
stores and compares them). -/

/-- The 7 label values of one child of the speed GaugeVec. -/
abbrev LabelValues := List String

/-- State of the speed GaugeVec: the currently materialized label
combinations with their values, in creation order. -/
structure GaugeVecState where
  entries : List (LabelValues × ℚ)
deriving DecidableEq, Repr

/-- Reset() — delete all metrics in the vector. -/
def GaugeVecState.reset (_g : GaugeVecState) : GaugeVecState :=
  ⟨[]⟩

/-- WithLabelValues(ls...).Set(v) — create or overwrite one combination. -/
def GaugeVecState.set (g : GaugeVecState) (ls : LabelValues) (v : ℚ) : GaugeVecState :=
  if (g.entries.map Prod.fst).contains ls then
    ⟨g.entries.map (fun e => if e.1 = ls then (ls, v) else e)⟩
  else
    ⟨g.entries ++ [(ls, v)]⟩

/-- The published snapshot: the speed GaugeVec plus the ping gauge. -/
structure Snapshot where
  speed : GaugeVecState
  ping : ℚ
deriving DecidableEq, Repr

/-- The decoded JSON measurement record, struct speedTestResult.  Numeric
fields are exact rationals standing for the float64 values; Client.IP
holds the rendering res.Client.IP.String() produces, and Timestamp and
Server.URL are carried as text (their Go-side parsing is external to the
claims, see unmarshalSpeedTestResult). -/
structure clientInfo where
  IP : String := ""
  Lat : String := ""
  Lon : String := ""
  ISP : String := ""
  ISPRating : String := ""
  Rating : String := ""
  ISPLavg : String := ""
  ISPULavg : String := ""
  LoggedIn : String := ""
  Country : String := ""
deriving DecidableEq, Repr

structure serverInfo where
  URL : String := ""
  Lat : String := ""
  Lon : String := ""
  Name : String := ""
  Country : String := ""
  CC : String := ""
  Sponsor : String := ""
  ID : String := ""
  Host : String := ""
  D : ℚ := 0
  Latency : ℚ := 0
deriving DecidableEq, Repr

structure speedTestResult where
  Download : ℚ := 0
  Upload : ℚ := 0
  Ping : ℚ := 0
  Timestamp : String := ""
  BytesSent : Nat := 0
  BytesReceived : Nat := 0
  Client : clientInfo := {}
  Server : serverInfo := {}
deriving DecidableEq, Repr

/-- The label-value vector the success path writes for one direction. -/
def speedLabels (direction : String) (res : speedTestResult) : LabelValues :=
  [direction,
   res.Client.IP, res.Client.ISP, res.Client.Country,
   res.Server.Sponsor, res.Server.Host, res.Server.Country]

/-- The success-path publish (source lines 336-348): Reset() the speed
vector, write the upload and download combinations labeled with the new
result's client and server fields, and set the ping gauge. -/
def publishResult (snap : Snapshot) (res : speedTestResult) : Snapshot :=
  let g := snap.speed.reset
  let g := g.set (speedLabels "upload" res) res.Upload
  let g := g.set (speedLabels "download" res) res.Download
  ⟨g, res.Ping⟩

/-- setError (source lines 209-227): Reset() the speed vector, write the
upload and download combinations with the six non-direction label values
empty and value 0, and set the ping gauge to 0. -/
def setError (snap : Snapshot) : Snapshot :=
  let g := snap.speed.reset
  let g := g.set ["upload", "", "", "", "", "", ""] 0
  let g := g.set ["download", "", "", "", "", "", ""] 0
  ⟨g, 0⟩

/-! ### The controller cycle (the body of main's loop, source lines 278-352)

The loop body is embedded as a pure function of the configuration, the
prior snapshot, and the outcomes of the at most two subprocess runs of the
cycle (server discovery and measurement), returning the new snapshot, the
number of seconds the cycle sleeps before the next one, and whether the
measurement subprocess was invoked at all.  Durations are whole seconds. -/

/-- defaultRetryInterval = 60 * time.Second. -/
def defaultRetryIntervalSec : Nat := 60

/-- The default of the -i flag, 30 * time.Minute, in seconds. -/
def defaultSleepIntervalSec : Nat := 1800

/-- The default of the -r flag, 1 * time.Minute, in seconds. -/
def defaultDiscoveryRetrySec : Nat := 60

/-- The flag-derived configuration the loop body reads. -/
structure Config where
  /-- -i, the normal interval between speedtest executions, in seconds. -/
  sleepIntervalSec : Nat := defaultSleepIntervalSec
  /-- -r, the interval between retries after a failed server search. -/
  retryIntervalSec : Nat := defaultDiscoveryRetrySec
  /-- -S, the pinned server ID (0 = unset). -/
  speedTestServerID : Int := 0
  /-- -m, the max distance in km (0 = unset). -/
  maxDistance : Int := 0
  /-- -R, the server regular expression flag text ("" = unset). -/
  serverRegexpFlag : String := ""
  /-- MatchString of the compiled -R expression. -/
  nameMatches : String → Bool := fun _ => false
  /-- -I, insecure mode. -/
  insecure : Bool := false

/-- Outcome of the cycle's measurement invocation: the decoded result, or
a failure already classified by the stderr scan (a JSON decode failure
also surfaces as a generic failure). -/
abbrev MeasureOutcome := Except RunFailure speedTestResult

/-- Outcome of the cycle's server-discovery invocation, when one happens:
the parsed server list, or any getServers failure (run failure or parse
failure alike — main only checks err != nil on this path). -/
abbrev DiscoveryOutcome := Except Unit (List SpeedtestServer)

/-- What one cycle produced. -/
structure CycleResult where
  snap : Snapshot
  sleepSec : Nat
  measured : Bool
deriving DecidableEq, Repr

/-- The measurement half of the cycle: run speedtest; on errRetryable403
sleep the fixed defaultRetryInterval without touching the snapshot; on any
other failure only log, leaving the snapshot untouched, and sleep the
normal interval; on success publish and sleep the normal interval. -/
def measurePhase (cfg : Config) (meas : MeasureOutcome) (snap : Snapshot) : CycleResult :=
  match meas with
  | .error .retryable403 => ⟨snap, defaultRetryIntervalSec, true⟩
  | .error .genericFailure => ⟨snap, cfg.sleepIntervalSec, true⟩
  | .ok res => ⟨publishResult snap res, cfg.sleepIntervalSec, true⟩

/-- One iteration of main's loop.  When neither the -R nor the -m filter
is set, discovery is skipped and the measurement runs directly (with the
pinned ID or none).  Otherwise getServers runs: on failure, setError is
applied and the cycle sleeps the -r retry interval without measuring; the
same happens when filtering leaves no candidate ID; otherwise the
measurement runs with the candidate IDs. -/
def cycle (cfg : Config) (disc : DiscoveryOutcome) (meas : MeasureOutcome)
    (snap : Snapshot) : CycleResult :=
  if cfg.serverRegexpFlag = "" ∧ cfg.maxDistance = 0 then
    measurePhase cfg meas snap
  else
    match disc with
    | .error _ => ⟨setError snap, cfg.retryIntervalSec, false⟩
    | .ok allServers =>
        match selectCandidates cfg.serverRegexpFlag cfg.nameMatches cfg.maxDistance allServers with
        | .noServerMatch => ⟨setError snap, cfg.retryIntervalSec, false⟩
        | .ok _ => measurePhase cfg meas snap

/-! ### JSON decoding of the measurement payload (source lines 125-131)

json.Unmarshal(outb.Bytes(), &ret) first validates the whole payload
against the JSON grammar (any syntax error is a hard failure before any
field is assigned) and then decodes the top-level value into the
speedTestResult struct: the top value must be an object (or null, which
leaves the struct at its zero value); keys are matched to field names
case-insensitively; unknown keys are ignored; a missing field is NOT an
error — the field simply keeps its zero value; a present field whose JSON
type does not fit the Go type is an error.  Textual field types
(time.Time, net.IP, xjson.URL) are modeled as verbatim strings: their
extra Go-side text validation can only reject more payloads, and no
theorem below relies on those rejections.  JSON numbers are modeled as
exact rationals standing for float64 (again, float64 range/precision can
only reject or perturb values the theorems below do not depend on). -/

def lCurly : Char := Char.ofNat 123

def rCurly : Char := Char.ofNat 125

/-- JSON whitespace, as encoding/json's scanner accepts it. -/
def isJsonWS (c : Char) : Bool :=
  c = ' ' || c = '\t' || c = '\r' || c = '\n'

def skipJsonWS (cs : List Char) : List Char :=
  cs.dropWhile isJsonWS

/-- A parsed JSON value. -/
inductive JVal where
  | jnull
  | jbool (b : Bool)
  | jnum (q : ℚ)
  | jstr (s : String)
  | jarr (elems : List JVal)
  | jobj (fields : List (String × JVal))

/-- Value of a hexadecimal digit, for the backslash-u string escape (code
points 48-57 are the decimal digits, 97-102 the lowercase and 65-70 the
uppercase hex letters). -/
def hexVal (c : Char) : Option Nat :=
  let n := c.toNat
  if 48 ≤ n ∧ n ≤ 57 then some (n - 48)
  else if 97 ≤ n ∧ n ≤ 102 then some (n - 87)
  else if 65 ≤ n ∧ n ≤ 70 then some (n - 55)
  else none

/-- Body of a JSON string after its opening quote: raw characters below
0x20 are a syntax error, the standard escapes are decoded (a
backslash-u escape becomes the scalar value of its four hex digits;
surrogate-pair recombination is not modeled), and the closing quote ends
the string. -/
def parseJStrBody : Nat → List Char → Option (List Char × List Char)
  | 0, _ => none
  | fuel + 1, cs =>
      match cs with
      | [] => none
      | '"' :: rest => some ([], rest)
      | '\\' :: esc =>
          match esc with
          | '"' :: rest => (parseJStrBody fuel rest).map (fun p => ('"' :: p.1, p.2))
          | '\\' :: rest => (parseJStrBody fuel rest).map (fun p => ('\\' :: p.1, p.2))
          | '/' :: rest => (parseJStrBody fuel rest).map (fun p => ('/' :: p.1, p.2))
          | 'b' :: rest => (parseJStrBody fuel rest).map (fun p => ('\x08' :: p.1, p.2))
          | 'f' :: rest => (parseJStrBody fuel rest).map (fun p => ('\x0c' :: p.1, p.2))
          | 'n' :: rest => (parseJStrBody fuel rest).map (fun p => ('\n' :: p.1, p.2))
          | 'r' :: rest => (parseJStrBody fuel rest).map (fun p => ('\r' :: p.1, p.2))
          | 't' :: rest => (parseJStrBody fuel rest).map (fun p => ('\t' :: p.1, p.2))
          | 'u' :: h1 :: h2 :: h3 :: h4 :: rest =>
              match hexVal h1, hexVal h2, hexVal h3, hexVal h4 with
              | some a, some b, some c, some d =>
                  let n := ((a * 16 + b) * 16 + c) * 16 + d
                  (parseJStrBody fuel rest).map (fun p => (Char.ofNat n :: p.1, p.2))
              | _, _, _, _ => none
          | _ => none
      | c :: rest =>
          if c.toNat < 32 then none
          else (parseJStrBody fuel rest).map (fun p => (c :: p.1, p.2))

/-- A JSON number: optional minus, an integer part that is a bare 0 or
starts with a nonzero digit, an optional fraction, an optional exponent;
evaluated exactly as a rational. -/
def parseJNum (cs : List Char) : Option (ℚ × List Char) :=
  let signSplit : Bool × List Char :=
    match cs with
    | '-' :: r => (true, r)
    | _ => (false, cs)
  let neg := signSplit.1
  let cs1 := signSplit.2
  match cs1 with
  | [] => none
  | c :: rest =>
      if ¬ isDigit c then none
      else
        let intPart : List Char × List Char :=
          if c = '0' then (['0'], rest)
          else (c :: rest.takeWhile isDigit, rest.dropWhile isDigit)
        let afterInt := intPart.2
        let fracStep : Option (List Char × List Char) :=
          match afterInt with
          | '.' :: r2 =>
              let fd := r2.takeWhile isDigit
              if fd = [] then none else some (fd, r2.dropWhile isDigit)
          | _ => some ([], afterInt)
        match fracStep with
        | none => none
        | some (fracDigits, afterFrac) =>
            let expStep : Option (Bool × List Char × List Char) :=
              match afterFrac with
              | 'e' :: r3 =>
                  match r3 with
                  | '-' :: r4 =>
                      let ed := r4.takeWhile isDigit
                      if ed = [] then none else some (true, ed, r4.dropWhile isDigit)
                  | '+' :: r4 =>
                      let ed := r4.takeWhile isDigit
                      if ed = [] then none else some (false, ed, r4.dropWhile isDigit)
                  | _ =>
                      let ed := r3.takeWhile isDigit
                      if ed = [] then none else some (false, ed, r3.dropWhile isDigit)
              | 'E' :: r3 =>
                  match r3 with
                  | '-' :: r4 =>
                      let ed := r4.takeWhile isDigit
                      if ed = [] then none else some (true, ed, r4.dropWhile isDigit)
                  | '+' :: r4 =>
                      let ed := r4.takeWhile isDigit
                      if ed = [] then none else some (false, ed, r4.dropWhile isDigit)
                  | _ =>
                      let ed := r3.takeWhile isDigit
                      if ed = [] then none else some (false, ed, r3.dropWhile isDigit)
              | _ => some (false, [], afterFrac)
            match expStep with
            | none => none
            | some (expNeg, expDigits, afterExp) =>
                let mantissa : ℚ :=
                  (natOfDigits intPart.1 : ℚ) +
                    (natOfDigits fracDigits : ℚ) / ((10 : ℚ) ^ fracDigits.length)
                let scaled : ℚ :=
                  if expNeg then mantissa / ((10 : ℚ) ^ natOfDigits expDigits)
                  else mantissa * ((10 : ℚ) ^ natOfDigits expDigits)
                some (if neg then -scaled else scaled, afterExp)

mutual

/-- Recursive-descent JSON value parser (fuel-indexed; every recursive
call is made after consuming at least one character, so fuel = input
length + 1 always suffices). -/
def parseJVal : Nat → List Char → Option (JVal × List Char)
  | 0, _ => none
  | fuel + 1, cs =>
      let cs := skipJsonWS cs
      match cs with
      | [] => none
      | c :: rest =>
          if c = '"' then
            (parseJStrBody (rest.length + 1) rest).map fun p => (.jstr (String.mk p.1), p.2)
          else if c = lCurly then parseJObjFields fuel rest true
          else if c = '[' then parseJArrElems fuel rest true
          else if c = 't' then
            (scanLit "rue".toList rest).map fun r => (.jbool true, r)
          else if c = 'f' then
            (scanLit "alse".toList rest).map fun r => (.jbool false, r)
          else if c = 'n' then
            (scanLit "ull".toList rest).map fun r => (.jnull, r)
          else
            (parseJNum cs).map fun p => (.jnum p.1, p.2)

/-- Elements of an array after its opening bracket; `first` tells whether
no element has been parsed yet (so a closing bracket is allowed before any
element, and later elements need a preceding comma). -/
def parseJArrElems : Nat → List Char → Bool → Option (JVal × List Char)
  | 0, _, _ => none
  | fuel + 1, cs, first =>
      let cs := skipJsonWS cs
      match cs with
      | [] => none
      | c :: rest =>
          if c = ']' ∧ first then some (.jarr [], rest)
          else
            match parseJVal fuel cs with
            | none => none
            | some (v, r1) =>
                let r2 := skipJsonWS r1
                match r2 with
                | ']' :: r3 => some (.jarr [v], r3)
                | ',' :: r3 =>
                    match parseJArrElems fuel r3 false with
                    | some (.jarr vs, r4) => some (.jarr (v :: vs), r4)
                    | _ => none
                | _ => none

/-- Fields of an object after its opening brace; `first` as for arrays. -/
def parseJObjFields : Nat → List Char → Bool → Option (JVal × List Char)
  | 0, _, _ => none
  | fuel + 1, cs, first =>
      let cs := skipJsonWS cs
      match cs with
      | [] => none
      | c :: rest =>
          if c = rCurly ∧ first then some (.jobj [], rest)
          else if c = '"' then
            match parseJStrBody (rest.length + 1) rest with
            | none => none
            | some (keyChars, r1) =>
                match skipJsonWS r1 with
                | ':' :: r2 =>
                    match parseJVal fuel r2 with
                    | none => none
                    | some (v, r3) =>
                        let r4 := skipJsonWS r3
                        match r4 with
                        | ',' :: r5 =>
                            match parseJObjFields fuel r5 false with
                            | some (.jobj fs, r6) => some (.jobj ((String.mk keyChars, v) :: fs), r6)
                            | _ => none
                        | d :: r5 =>
                            if d = rCurly then some (.jobj [(String.mk keyChars, v)], r5) else none
                        | [] => none
                | _ => none
          else none

end

/-- json.Valid-style parse of the whole payload: one top-level value with
only whitespace around it. -/
def parseJSON (payload : String) : Option JVal :=
  match parseJVal (payload.length + 1) payload.toList with
  | some (v, rest) => if skipJsonWS rest = [] then some v else none
  | none => none

/-- Case-insensitive key-to-field matching, as encoding/json falls back to
when no exact-case field name matches (the struct field names here are
pairwise distinct under folding, so folding both sides is equivalent;
ASCII folding via toLower is modeled). -/
def keyIs (key field : String) : Bool :=
  key.toLower = field.toLower

/-- Decode a JSON value into a Go string-typed field: a string replaces
the current value, null leaves it, anything else is a type error. -/
def jsonIntoString (cur : String) (v : JVal) : Except String String :=
  match v with
  | .jstr s => .ok s
  | .jnull => .ok cur
  | _ => .error "cannot unmarshal value into field of type string"

/-- Decode a JSON value into a float64 field (modeled as an exact
rational): a number replaces the current value, null leaves it, anything
else is a type error. -/
def jsonIntoFloat (cur : ℚ) (v : JVal) : Except String ℚ :=
  match v with
  | .jnum q => .ok q
  | .jnull => .ok cur
  | _ => .error "cannot unmarshal value into field of type float64"

/-- Decode a JSON value into a uint field: the number literal must denote
a nonnegative integer (a minus sign or a fractional value is a type
error, as for Go uints), null leaves the current value. -/
def jsonIntoUint (cur : Nat) (v : JVal) : Except String Nat :=
  match v with
  | .jnum q => if q.den = 1 ∧ 0 ≤ q.num then .ok q.num.toNat else .error "cannot unmarshal number into field of type uint"
  | .jnull => .ok cur
  | _ => .error "cannot unmarshal value into field of type uint"

/-- Assign one JSON object member to the clientInfo struct.  Unknown keys
are ignored.  Client.IP (a net.IP decoded from its text form) is modeled
as the verbatim string. -/
def setClientField (c : clientInfo) (key : String) (v : JVal) : Except String clientInfo :=
  if keyIs key "IP" then do
    let x ← jsonIntoString c.IP v
    .ok { c with IP := x }
  else if keyIs key "Lat" then do
    let x ← jsonIntoString c.Lat v
    .ok { c with Lat := x }
  else if keyIs key "Lon" then do
    let x ← jsonIntoString c.Lon v
    .ok { c with Lon := x }
  else if keyIs key "ISP" then do
    let x ← jsonIntoString c.ISP v
    .ok { c with ISP := x }
  else if keyIs key "ISPRating" then do
    let x ← jsonIntoString c.ISPRating v
    .ok { c with ISPRating := x }
  else if keyIs key "Rating" then do
    let x ← jsonIntoString c.Rating v
    .ok { c with Rating := x }
  else if keyIs key "ISPLavg" then do
    let x ← jsonIntoString c.ISPLavg v
    .ok { c with ISPLavg := x }
  else if keyIs key "ISPULavg" then do
    let x ← jsonIntoString c.ISPULavg v
    .ok { c with ISPULavg := x }
  else if keyIs key "LoggedIn" then do
    let x ← jsonIntoString c.LoggedIn v
    .ok { c with LoggedIn := x }
  else if keyIs key "Country" then do
    let x ← jsonIntoString c.Country v
    .ok { c with Country := x }
  else .ok c

/-- Decode a JSON value into the clientInfo struct field: an object's
members are folded over the current value, null leaves it, anything else
is a type error. -/
def jsonIntoClient (cur : clientInfo) (v : JVal) : Except String clientInfo :=
  match v with
  | .jobj fs => fs.foldlM (fun c kv => setClientField c kv.1 kv.2) cur
  | .jnull => .ok cur
  | _ => .error "cannot unmarshal value into field of type clientInfo"

/-- Assign one JSON object member to the serverInfo struct.  Server.URL
(an xjson.URL decoded from its text form) is modeled as the verbatim
string. -/
def setServerField (s : serverInfo) (key : String) (v : JVal) : Except String serverInfo :=
  if keyIs key "URL" then do
    let x ← jsonIntoString s.URL v
    .ok { s with URL := x }
  else if keyIs key "Lat" then do
    let x ← jsonIntoString s.Lat v
    .ok { s with Lat := x }
  else if keyIs key "Lon" then do
    let x ← jsonIntoString s.Lon v
    .ok { s with Lon := x }
  else if keyIs key "Name" then do
    let x ← jsonIntoString s.Name v
    .ok { s with Name := x }
  else if keyIs key "Country" then do
    let x ← jsonIntoString s.Country v
    .ok { s with Country := x }
  else if keyIs key "CC" then do
    let x ← jsonIntoString s.CC v
    .ok { s with CC := x }
  else if keyIs key "Sponsor" then do
    let x ← jsonIntoString s.Sponsor v
    .ok { s with Sponsor := x }
  else if keyIs key "ID" then do
    let x ← jsonIntoString s.ID v
    .ok { s with ID := x }
  else if keyIs key "Host" then do
    let x ← jsonIntoString s.Host v
    .ok { s with Host := x }
  else if keyIs key "D" then do
    let x ← jsonIntoFloat s.D v
    .ok { s with D := x }
  else if keyIs key "Latency" then do
    let x ← jsonIntoFloat s.Latency v
    .ok { s with Latency := x }
  else .ok s

/-- Decode a JSON value into the serverInfo struct field. -/
def jsonIntoServer (cur : serverInfo) (v : JVal) : Except String serverInfo :=
  match v with
  | .jobj fs => fs.foldlM (fun s kv => setServerField s kv.1 kv.2) cur
  | .jnull => .ok cur
  | _ => .error "cannot unmarshal value into field of type serverInfo"

/-- Assign one JSON object member to the speedTestResult struct.
Timestamp (a time.Time, which Go parses from an RFC3339 string) is
modeled as the verbatim string. -/
def setResultField (r : speedTestResult) (key : String) (v : JVal) : Except String speedTestResult :=
  if keyIs key "Download" then do
    let x ← jsonIntoFloat r.Download v
    .ok { r with Download := x }
  else if keyIs key "Upload" then do
    let x ← jsonIntoFloat r.Upload v
    .ok { r with Upload := x }
  else if keyIs key "Ping" then do
    let x ← jsonIntoFloat r.Ping v
    .ok { r with Ping := x }
  else if keyIs key "Timestamp" then do
    let x ← jsonIntoString r.Timestamp v
    .ok { r with Timestamp := x }
  else if keyIs key "BytesSent" then do
    let x ← jsonIntoUint r.BytesSent v
    .ok { r with BytesSent := x }
  else if keyIs key "BytesReceived" then do
    let x ← jsonIntoUint r.BytesReceived v
    .ok { r with BytesReceived := x }
  else if keyIs key "Client" then do
    let x ← jsonIntoClient r.Client v
    .ok { r with Client := x }
  else if keyIs key "Server" then do
    let x ← jsonIntoServer r.Server v
    .ok { r with Server := x }
  else .ok r

/-- Decode the top-level JSON value into speedTestResult: an object's
members are assigned in order over the zero value, null leaves the struct
at its zero value, any other top-level value is a type error. -/
def decodeResult (v : JVal) : Except String speedTestResult :=
  match v with
  | .jobj fs => fs.foldlM (fun r kv => setResultField r kv.1 kv.2) ({} : speedTestResult)
  | .jnull => .ok {}
  | _ => .error "cannot unmarshal value into type speedTestResult"

/-- The decode step of speedtest (source lines 125-131): json.Unmarshal of
the captured stdout into a fresh speedTestResult; a syntax error anywhere
in the payload or a type mismatch on a present field is a hard failure and
no result is returned. -/
def unmarshalSpeedTestResult (payload : String) : Except String speedTestResult :=
  match parseJSON payload with
  | none => .error "failed to unmarshal JSON result: syntax error"
  | some v => decodeResult v

/-! ### Auxiliary definitions used by the statements below -/

/-- The snapshot with no materialized label combination and ping 0 (the
state right after registration, before any cycle). -/
def emptySnapshot : Snapshot :=
  ⟨⟨[]⟩, 0⟩

/-- The snapshot setError leaves behind: exactly the upload and download
combinations, each with the six non-direction label values empty and value
0, and ping 0. -/
def zeroSnapshot : Snapshot :=
  ⟨⟨[(["upload", "", "", "", "", "", ""], 0), (["download", "", "", "", "", "", ""], 0)]⟩, 0⟩

/-- The reading of claim C6's words "all seven label values set to the
empty string": every label value of every materialized combination is
empty. -/
def allLabelValuesEmpty (snap : Snapshot) : Prop :=
  ∀ e ∈ snap.speed.entries, ∀ v ∈ e.1, v = ""

/-- Modelled from the spec's words, for comparison with the Fscanf-based
scan: a stderr line of the claimed shape "ERROR: HTTP Error <code>:
<message>" with a free-text message. -/
def specHTTPErrorShape (code : Int) (msg : String) : String :=
  "ERROR: HTTP Error " ++ toString code ++ ": " ++ msg

/-- A configuration whose normal interval (30 seconds) is shorter than the
fixed 60-second throttling backoff. -/
def cfgShortSleep : Config :=
  { sleepIntervalSec := 30 }

/-- A configuration with only the max-distance filter set, so server
discovery runs each cycle. -/
def cfgMaxDist (d : Int) : Config :=
  { maxDistance := d }

/-- A sample successful measurement with client IP 1.1.1.1. -/
def resIPa : speedTestResult :=
  { Download := 100, Upload := 50, Ping := 7,
    Client := { IP := "1.1.1.1", ISP := "ISPa", Country := "US" },
    Server := { Sponsor := "SpA", Host := "a.example", Country := "US" } }

/-- A sample successful measurement with client IP 2.2.2.2. -/
def resIPb : speedTestResult :=
  { Download := 200, Upload := 90, Ping := 9,
    Client := { IP := "2.2.2.2", ISP := "ISPb", Country := "DE" },
    Server := { Sponsor := "SpB", Host := "b.example", Country := "DE" } }

/-! ## Theorems -/

theorem twoPow1024_eq : twoPow1024 = 2 ^ 1024 := by
  norm_num [twoPow1024]

theorem twoPow63_eq : twoPow63 = 2 ^ 63 := by
  norm_num [twoPow63]

/-- floatGE is antitone in the bound. -/
theorem floatGE_mono (f : Nat × Int) (b1 b2 : Nat) (hb : b1 ≤ b2)
    (h : floatGE f b2 = true) : floatGE f b1 = true := by
  obtain ⟨m, s⟩ := f
  cases s with
  | ofNat k =>
    simp only [floatGE, decide_eq_true_eq] at h ⊢
    exact le_trans (Nat.mul_le_mul_right _ hb) h
  | negSucc k =>
    simp only [floatGE, decide_eq_true_eq] at h ⊢
    exact le_trans hb h

/-- Both capture-group numbers of a match are small enough for the
source's conversions to be defined: the ID fits in int64 (ParseInt
succeeds) and the distance rounds to a float64 below 2^63 (so no ErrRange,
and Go's int conversion of the float is defined and truncates). -/
def matchNumbersInRange (m : ServerLineMatch) : Bool :=
  decide (natOfDigits m.idDigits ≤ int64Max) &&
    !floatGE (distFloat m.distIntDigits m.distFracDigits) twoPow63

theorem getServersLoop_filterMap (ls : List (List Char)) (acc : List SpeedtestServer)
    (h : ∀ l ∈ ls, (findServerMatch l).all matchNumbersInRange = true) :
    getServersLoop ls acc =
      .ok (acc ++ ls.filterMap (fun l => (findServerMatch l).map descrOfMatch)) := by
  induction ls generalizing acc with
  | nil => simp [getServersLoop]
  | cons l ls ih =>
    have hrest := fun l' hl' => h l' (List.mem_cons_of_mem _ hl')
    cases hfm : findServerMatch l with
    | none =>
      simp [getServersLoop, parseServerLine, hfm, ih acc hrest]
    | some m =>
      have hm := h l (List.mem_cons_self _ _)
      rw [hfm] at hm
      simp only [Option.all_some, matchNumbersInRange, Bool.and_eq_true, decide_eq_true_eq,
        Bool.not_eq_true'] at hm
      have hnotInf : ¬ (floatGE (distFloat m.distIntDigits m.distFracDigits) twoPow1024 = true) := by
        intro hcontra
        have h63 : twoPow63 ≤ twoPow1024 := by norm_num [twoPow63, twoPow1024]
        rw [floatGE_mono _ twoPow63 twoPow1024 h63 hcontra] at hm
        exact Bool.noConfusion hm.2
      simp only [getServersLoop, parseServerLine, hfm, parseInt64Digits, parseDistanceKm,
        if_pos hm.1, if_neg hnotInf]
      rw [ih _ hrest]
      simp [descrOfMatch, hfm, List.append_assoc]

/-- C1, amended: for every server-list text whose scanned lines (the
scanner stops at a 64KiB-or-longer line) all have regexp matches with
in-range numbers (ID within int64, distance rounding to a float64 below
2^63), getServersParse yields exactly one descriptor per matching scanned
line, in input order, whose ID is the value of the matched integer and
whose DistanceKm is the truncation toward zero of the decimal's nearest
float64 (descrOfMatch); non-matching lines are skipped; and when no
scanned line matches — including on empty input — the parse fails with
"no servers found". -/
theorem c1_server_list_parse (out : String)
    (h : ∀ l ∈ goLines out.toList, (findServerMatch l).all matchNumbersInRange = true) :
    getServersParse out =
      (if ((goLines out.toList).filterMap (fun l => (findServerMatch l).map descrOfMatch)).isEmpty
       then .error .noServersFound
       else .ok ((goLines out.toList).filterMap (fun l => (findServerMatch l).map descrOfMatch))) := by
  unfold getServersParse
  rw [getServersLoop_filterMap _ [] h]
  simp

/-- Witness for c1_server_list_parse at a concrete two-line listing. -/
theorem c1_server_list_parse_witness :
    (∀ l ∈ goLines "1) Server A [12.5 km]\nsome header\n".toList,
      (findServerMatch l).all matchNumbersInRange = true) ∧
    getServersParse "1) Server A [12.5 km]\nsome header\n" = .ok [⟨1, "Server A", 12⟩] :=
  ⟨by decide, (c1_server_list_parse "1) Server A [12.5 km]\nsome header\n" (by decide)).trans (by rfl)⟩

/-- C1, counterexample, two refutations.  First, the line
"9999999999999999999) A [1.0 km]" matches the server-list pattern, yet the
parse of a text consisting of that line produces no descriptor at all — it
fails with the integer-parse error (the matched ID exceeds int64), not
with "no servers found" — refuting "every matching line produces exactly
one ServerDescriptor".  Second, for the matching line
"1) A [2.9999999999999999999 km]" the floor (truncation) of the decimal
distance is 2, but ParseFloat rounds the decimal to exactly 3.0 (the
nearest float64) and int() gives 3, refuting "DistanceKm equal to the
floor of the decimal distance". -/
theorem c1_counterexample :
    ((findServerMatch ("9999999999999999999) A [1.0 km]").toList).isSome = true ∧
     getServersParse "9999999999999999999) A [1.0 km]\n" =
       .error (.numParseError "9999999999999999999")) ∧
    (29999999999999999999 / 10 ^ 19 = 2 ∧
     getServersParse "1) A [2.9999999999999999999 km]\n" = .ok [⟨1, "A", 3⟩]) :=
  ⟨⟨by decide, by rfl⟩, ⟨by norm_num, by rfl⟩⟩

/-- C9: on the scenario listing, parsing yields the two descriptors (with
truncated distances 12 and 40) and the selector with max distance 20 and
no name pattern returns exactly the candidate ID list [1]. -/
theorem c9_scenario :
    ∀ nameMatches : String → Bool,
      getServersParse "1) Server A [12.5 km]\n2) Server B [40.0 km]\nsome header\n" =
        .ok [⟨1, "Server A", 12⟩, ⟨2, "Server B", 40⟩] ∧
      selectCandidates "" nameMatches 20 [⟨1, "Server A", 12⟩, ⟨2, "Server B", 40⟩] =
        .ok [1] := by
  intro nameMatches
  refine ⟨by rfl, ?_⟩
  simp [selectCandidates]

/-- C2: with a name pattern configured and a positive max distance,
applying the name filter and then the distance filter yields the same
list, in the original input order, as one filter by the conjunction of
both predicates; and on the empty result the selector reports the
no-match outcome, on which the controller's cycle skips measurement (its
retry path). -/
theorem c2_filters_compose (cfg : Config) (allServers : List SpeedtestServer)
    (hflag : cfg.serverRegexpFlag ≠ "") (hpos : 0 < cfg.maxDistance) :
    (selectCandidates cfg.serverRegexpFlag cfg.nameMatches cfg.maxDistance allServers =
      (if (allServers.filter fun s => cfg.nameMatches s.Name && decide (s.DistanceKm ≤ cfg.maxDistance)).isEmpty
       then .noServerMatch
       else .ok ((allServers.filter fun s =>
         cfg.nameMatches s.Name && decide (s.DistanceKm ≤ cfg.maxDistance)).map fun s => s.ID))) ∧
    (∀ meas snap,
      selectCandidates cfg.serverRegexpFlag cfg.nameMatches cfg.maxDistance allServers = .noServerMatch →
      (cycle cfg (.ok allServers) meas snap).measured = false) := by
  constructor
  · simp only [selectCandidates]
    rw [if_pos hflag, if_pos hpos, List.filter_filter]
    rw [List.filter_congr (fun s _ => by rw [Bool.and_comm])]
    cases List.filter (fun s => cfg.nameMatches s.Name && decide (s.DistanceKm ≤ cfg.maxDistance)) allServers <;> simp
  · intro meas snap hsel
    simp only [cycle]
    rw [if_neg (fun hc => hflag hc.1), hsel]

/-- Witness for c2_filters_compose on a concrete two-server list whose
name filter keeps only "Server A". -/
theorem c2_filters_compose_witness :
    ({ serverRegexpFlag := "A", nameMatches := fun s => s = "Server A", maxDistance := 20 } : Config).serverRegexpFlag ≠ "" ∧
    (0 : Int) < ({ serverRegexpFlag := "A", nameMatches := fun s => s = "Server A", maxDistance := 20 } : Config).maxDistance ∧
    (selectCandidates "A" (fun s => s = "Server A") 20 [⟨1, "Server A", 12⟩, ⟨2, "Server B", 4⟩] =
      (if ([(⟨1, "Server A", 12⟩ : SpeedtestServer), ⟨2, "Server B", 4⟩].filter fun s =>
            (fun t => t = "Server A") s.Name && decide (s.DistanceKm ≤ (20 : Int))).isEmpty
       then .noServerMatch
       else .ok (([(⟨1, "Server A", 12⟩ : SpeedtestServer), ⟨2, "Server B", 4⟩].filter fun s =>
            (fun t => t = "Server A") s.Name && decide (s.DistanceKm ≤ (20 : Int))).map fun s => s.ID))) := by
  refine ⟨by decide, by decide, ?_⟩
  exact (c2_filters_compose
    { serverRegexpFlag := "A", nameMatches := fun s => s = "Server A", maxDistance := 20 }
    [⟨1, "Server A", 12⟩, ⟨2, "Server B", 4⟩] (by decide) (by decide)).1

/-- Every character Nat.toDigitsCore can emit beyond its accumulator is a
digitChar. -/
theorem mem_toDigitsCore (b : Nat) (fuel : Nat) :
    ∀ (n : Nat) (ds : List Char) (c : Char), c ∈ Nat.toDigitsCore b fuel n ds →
      c ∈ ds ∨ ∃ k, c = Nat.digitChar k := by
  induction fuel with
  | zero =>
    intro n ds c h
    simp only [Nat.toDigitsCore] at h
    exact .inl h
  | succ fuel ih =>
    intro n ds c h
    simp only [Nat.toDigitsCore] at h
    split at h
    · rcases List.mem_cons.mp h with h | h
      · exact .inr ⟨n % b, h⟩
      · exact .inl h
    · rcases ih _ _ _ h with h | h
      · rcases List.mem_cons.mp h with h | h
        · exact .inr ⟨n % b, h⟩
        · exact .inl h
      · exact .inr h

theorem digitChar_ne_dash (k : Nat) : Nat.digitChar k ≠ '-' := by
  rcases Nat.lt_or_ge k 16 with h | h
  · interval_cases k <;> decide
  · have h0 : ∀ j, j < 16 → k ≠ j := by omega
    simp only [Nat.digitChar, h0 0 (by norm_num), h0 1 (by norm_num), h0 2 (by norm_num),
      h0 3 (by norm_num), h0 4 (by norm_num), h0 5 (by norm_num), h0 6 (by norm_num),
      h0 7 (by norm_num), h0 8 (by norm_num), h0 9 (by norm_num), h0 10 (by norm_num),
      h0 11 (by norm_num), h0 12 (by norm_num), h0 13 (by norm_num), h0 14 (by norm_num),
      h0 15 (by norm_num), if_false]
    decide

/-- The decimal rendering of a Nat never starts with a minus sign. -/
theorem natRepr_ne_dash_head (n : Nat) (rest : List Char) : Nat.repr n ≠ ⟨'-' :: rest⟩ := by
  intro h
  have hdig : Nat.toDigits 10 n = '-' :: rest := by
    have := congrArg String.data h
    simpa [Nat.repr, List.asString] using this
  have hmem : '-' ∈ Nat.toDigits 10 n := hdig ▸ List.mem_cons_self _ _
  rcases mem_toDigitsCore 10 (n + 1) n [] '-' hmem with h' | ⟨k, hk⟩
  · simp at h'
  · exact digitChar_ne_dash k hk.symm

/-- fmt.Sprintf "%d" of an int is never the literal "--secure". -/
theorem toString_int_ne_secure (i : Int) : toString i ≠ "--secure" := by
  show Int.repr i ≠ "--secure"
  match i with
  | .ofNat m =>
    show Nat.repr m ≠ "--secure"
    exact natRepr_ne_dash_head m _
  | .negSucc m =>
    show "-" ++ Nat.repr (m + 1) ≠ "--secure"
    intro h
    have hd := congrArg String.data h
    simp [String.data_append] at hd
    refine natRepr_ne_dash_head (m + 1) ['s', 'e', 'c', 'u', 'r', 'e'] ?_
    cases hrepr : Nat.repr (m + 1)
    rw [hrepr] at hd
    simp at hd
    exact congrArg String.mk (by simpa using hd)

theorem speedtestArgsLoop_spec (ids : List Int) (a : List String) (b : Bool) :
    speedtestArgsLoop ids (a, b) =
      (a ++ (ids.filter fun i => decide (i ≠ 0)).flatMap (fun i => ["--server", toString i]),
       b || ids.any fun i => decide (i ≠ 0)) := by
  induction ids generalizing a b with
  | nil => simp [speedtestArgsLoop]
  | cons i rest ih =>
    by_cases hi : i = 0
    · simp [speedtestArgsLoop, hi, ih]
    · simp [speedtestArgsLoop, hi, ih]

/-- C10: whenever some configured server ID is nonzero, "--secure" is
never among the subprocess arguments, even with insecure mode off; server
IDs equal to 0 are skipped, so the argument list is exactly "--json"
followed by "--server <id>" for each nonzero ID in input order. -/
theorem c10_server_args (serverIDs : List Int) (insecure : Bool)
    (h : ∃ id ∈ serverIDs, id ≠ 0) :
    speedtestArgs serverIDs insecure =
      "--json" :: (serverIDs.filter fun i => decide (i ≠ 0)).flatMap
        (fun i => ["--server", toString i]) ∧
    "--secure" ∉ speedtestArgs serverIDs insecure := by
  have hany : (serverIDs.any fun i => decide (i ≠ 0)) = true := by
    obtain ⟨i, hmem, hi⟩ := h
    exact List.any_eq_true.mpr ⟨i, hmem, by simpa using hi⟩
  have hmain : speedtestArgs serverIDs insecure =
      "--json" :: (serverIDs.filter fun i => decide (i ≠ 0)).flatMap
        (fun i => ["--server", toString i]) := by
    unfold speedtestArgs
    rw [speedtestArgsLoop_spec]
    simp [hany]
    exact fun _ => h
  refine ⟨hmain, ?_⟩
  rw [hmain]
  intro hmem
  rcases List.mem_cons.mp hmem with h1 | h1
  · exact absurd h1 (by decide)
  · rcases List.mem_flatMap.mp h1 with ⟨i, _hi, h2⟩
    rcases List.mem_cons.mp h2 with h2 | h2
    · exact absurd h2 (by decide)
    · rcases List.mem_singleton.mp h2 with h2
      exact toString_int_ne_secure i h2.symm

/-- Witness for c10_server_args with IDs [0, 5]. -/
theorem c10_server_args_witness :
    (∃ id ∈ [(0 : Int), 5], id ≠ 0) ∧
    (speedtestArgs [0, 5] false =
      "--json" :: (([(0 : Int), 5].filter fun i => decide (i ≠ 0)).flatMap
        (fun i => ["--server", toString i])) ∧
     "--secure" ∉ speedtestArgs [0, 5] false) :=
  ⟨⟨5, by decide, by decide⟩, c10_server_args [0, 5] false ⟨5, by decide, by decide⟩⟩

/-- Any failed measurement leaves the snapshot untouched; the sleep is the
fixed 60-second constant on errRetryable403 and the normal interval on any
other failure. -/
theorem cycle_failure_keeps (cfg : Config) (disc : DiscoveryOutcome) (f : RunFailure)
    (snap : Snapshot) (h : (cycle cfg disc (.error f) snap).measured = true) :
    (cycle cfg disc (.error f) snap).snap = snap ∧
    (cycle cfg disc (.error f) snap).sleepSec =
      (match f with
       | .retryable403 => defaultRetryIntervalSec
       | .genericFailure => cfg.sleepIntervalSec) := by
  by_cases hc : cfg.serverRegexpFlag = "" ∧ cfg.maxDistance = 0
  · cases f <;> simp [cycle, hc, measurePhase]
  · cases disc with
    | error e => simp [cycle, hc, measurePhase] at h
    | ok servers =>
      cases hsel : selectCandidates cfg.serverRegexpFlag cfg.nameMatches cfg.maxDistance servers with
      | noServerMatch => simp [cycle, hc, hsel] at h
      | ok ids => cases f <;> simp [cycle, hc, hsel, measurePhase]

/-- C5: a cycle whose measurement fails with a generic execution failure
(anything but the retryable 403) leaves the published snapshot — every
speed-gauge label combination and value, and the ping gauge — exactly as
it was, and sleeps for the normal interval, not the retry backoff. -/
theorem c5_generic_failure_last_known_good (cfg : Config) (disc : DiscoveryOutcome)
    (snap : Snapshot)
    (h : (cycle cfg disc (.error .genericFailure) snap).measured = true) :
    (cycle cfg disc (.error .genericFailure) snap).snap = snap ∧
    (cycle cfg disc (.error .genericFailure) snap).sleepSec = cfg.sleepIntervalSec :=
  cycle_failure_keeps cfg disc .genericFailure snap h

/-- Witness for c5_generic_failure_last_known_good with the default
configuration and a nonempty prior snapshot. -/
theorem c5_generic_failure_last_known_good_witness :
    (cycle {} (.ok []) (.error .genericFailure) zeroSnapshot).measured = true ∧
    ((cycle {} (.ok []) (.error .genericFailure) zeroSnapshot).snap = zeroSnapshot ∧
     (cycle {} (.ok []) (.error .genericFailure) zeroSnapshot).sleepSec =
       ({} : Config).sleepIntervalSec) :=
  ⟨rfl, c5_generic_failure_last_known_good {} (.ok []) zeroSnapshot rfl⟩

/-- C6, amended: when discovery is configured (a name pattern or a max
distance is set), a failed getServers call or an empty filter result skips
measurement, replaces the entire snapshot with the zero snapshot — exactly
two speed-gauge entries, labeled "upload" and "download" in the direction
position with the six remaining label values empty and value 0, and ping
0 — and sleeps the discovery-retry interval; a generic measurement failure
never performs this zeroing (the snapshot stays exactly as it was). -/
theorem c6_discovery_failure_zeroes (cfg : Config) (meas : MeasureOutcome) (snap : Snapshot)
    (hneed : ¬ (cfg.serverRegexpFlag = "" ∧ cfg.maxDistance = 0)) :
    (∀ e : Unit, cycle cfg (.error e) meas snap = ⟨zeroSnapshot, cfg.retryIntervalSec, false⟩) ∧
    (∀ servers,
      selectCandidates cfg.serverRegexpFlag cfg.nameMatches cfg.maxDistance servers = .noServerMatch →
      cycle cfg (.ok servers) meas snap = ⟨zeroSnapshot, cfg.retryIntervalSec, false⟩) ∧
    (∀ disc, (cycle cfg disc (.error .genericFailure) snap).measured = true →
      (cycle cfg disc (.error .genericFailure) snap).snap = snap) := by
  refine ⟨?_, ?_, ?_⟩
  · intro e
    simp [cycle, hneed]
    rfl
  · intro servers hsel
    simp [cycle, hneed, hsel]
    rfl
  · intro disc h
    exact (cycle_failure_keeps cfg disc .genericFailure snap h).1

/-- Witness for c6_discovery_failure_zeroes with only the max-distance
filter configured. -/
theorem c6_discovery_failure_zeroes_witness :
    ¬ ((cfgMaxDist 5).serverRegexpFlag = "" ∧ (cfgMaxDist 5).maxDistance = 0) ∧
    (∀ e : Unit, cycle (cfgMaxDist 5) (.error e) (.error .genericFailure) emptySnapshot =
      ⟨zeroSnapshot, (cfgMaxDist 5).retryIntervalSec, false⟩) :=
  ⟨by decide,
   (c6_discovery_failure_zeroes (cfgMaxDist 5) (.error .genericFailure) emptySnapshot
     (by decide)).1⟩

/-- C6, counterexample: on a discovery-failure cycle the zero snapshot's
entries carry "upload" and "download" as their direction label value, so
the claim's "all seven label values set to the empty string" is false (the
six non-direction values are empty, the direction value is not). -/
theorem c6_counterexample :
    (cycle (cfgMaxDist 5) (.error ()) (.error .genericFailure) emptySnapshot).snap =
      zeroSnapshot ∧
    ¬ allLabelValuesEmpty zeroSnapshot := by
  refine ⟨rfl, fun h => ?_⟩
  have := h (["upload", "", "", "", "", "", ""], 0) (by simp [zeroSnapshot]) "upload" (by simp)
  simp at this

/-- C7: after the success-path publish the speed gauge holds exactly the
upload and download combinations carrying the new result's client and
server label values (with the new ping), after setError it holds exactly
the two zero combinations, and no combination from an earlier cycle
survives: in particular, after two consecutive publishes with different
client IPs, no entry carries the older result's label set. -/
theorem c7_label_sets_replaced :
    (∀ snap res, (publishResult snap res).speed.entries =
        [(speedLabels "upload" res, res.Upload), (speedLabels "download" res, res.Download)] ∧
      (publishResult snap res).ping = res.Ping) ∧
    (∀ snap, setError snap = zeroSnapshot) ∧
    (∀ snap r1 r2, r1.Client.IP ≠ r2.Client.IP →
      ∀ e ∈ (publishResult (publishResult snap r1) r2).speed.entries,
        e.1 ≠ speedLabels "upload" r1 ∧ e.1 ≠ speedLabels "download" r1) := by
  have hpub : ∀ (snap : Snapshot) (res : speedTestResult),
      (publishResult snap res).speed.entries =
        [(speedLabels "upload" res, res.Upload), (speedLabels "download" res, res.Download)] := by
    intro snap res
    simp [publishResult, GaugeVecState.reset, GaugeVecState.set, speedLabels]
  refine ⟨fun snap res => ⟨hpub snap res, rfl⟩, fun snap => rfl, ?_⟩
  intro snap r1 r2 hip e he
  rw [hpub] at he
  have hipne : ∀ (a b : speedTestResult) (d1 d2 : String), a.Client.IP ≠ b.Client.IP →
      speedLabels d1 a ≠ speedLabels d2 b := by
    intro a b d1 d2 hab heq
    simp only [speedLabels, List.cons.injEq] at heq
    exact hab heq.2.1
  rcases List.mem_cons.mp he with h1 | h1
  · rw [h1]
    exact ⟨hipne r2 r1 _ _ hip.symm, hipne r2 r1 _ _ hip.symm⟩
  · rcases List.mem_singleton.mp h1 with h1
    rw [h1]
    exact ⟨hipne r2 r1 _ _ hip.symm, hipne r2 r1 _ _ hip.symm⟩

/-- Witness for c7_label_sets_replaced on two sample results with
different client IPs. -/
theorem c7_label_sets_replaced_witness :
    resIPa.Client.IP ≠ resIPb.Client.IP ∧
    (∀ e ∈ (publishResult (publishResult emptySnapshot resIPa) resIPb).speed.entries,
      e.1 ≠ speedLabels "upload" resIPa ∧ e.1 ≠ speedLabels "download" resIPa) :=
  ⟨by decide, c7_label_sets_replaced.2.2 emptySnapshot resIPa resIPb (by decide)⟩

/-- C8, amended: a cycle classified as the retryable HTTP-403 throttling
publishes nothing (the snapshot is unchanged) and sleeps the fixed
60-second defaultRetryInterval constant before looping; that constant is
shorter than the default normal interval of 30 minutes (though a
configured normal interval may be as short or shorter, see the
counterexample). -/
theorem c8_throttling_backoff (cfg : Config) (disc : DiscoveryOutcome) (snap : Snapshot)
    (h : (cycle cfg disc (.error .retryable403) snap).measured = true) :
    (cycle cfg disc (.error .retryable403) snap).snap = snap ∧
    (cycle cfg disc (.error .retryable403) snap).sleepSec = defaultRetryIntervalSec ∧
    defaultRetryIntervalSec < defaultSleepIntervalSec := by
  obtain ⟨h1, h2⟩ := cycle_failure_keeps cfg disc .retryable403 snap h
  exact ⟨h1, h2, by decide⟩

/-- Witness for c8_throttling_backoff with the default configuration. -/
theorem c8_throttling_backoff_witness :
    (cycle {} (.ok []) (.error .retryable403) zeroSnapshot).measured = true ∧
    ((cycle {} (.ok []) (.error .retryable403) zeroSnapshot).snap = zeroSnapshot ∧
     (cycle {} (.ok []) (.error .retryable403) zeroSnapshot).sleepSec = defaultRetryIntervalSec ∧
     defaultRetryIntervalSec < defaultSleepIntervalSec) :=
  ⟨rfl, c8_throttling_backoff {} (.ok []) zeroSnapshot rfl⟩

/-- C8, counterexample: with the normal interval configured to 30 seconds
the throttling cycle still sleeps the fixed 60 seconds, which is NOT
shorter than the normal cycle interval, refuting the claim's "shorter
than the normal cycle interval" for every cycle. -/
theorem c8_counterexample :
    cycle cfgShortSleep (.ok []) (.error .retryable403) emptySnapshot =
      ⟨emptySnapshot, defaultRetryIntervalSec, true⟩ ∧
    ¬ (defaultRetryIntervalSec < cfgShortSleep.sleepIntervalSec) :=
  ⟨rfl, by decide⟩

/-- Witness for c9_scenario at a concrete (irrelevant) name predicate. -/
theorem c9_scenario_witness :
    getServersParse "1) Server A [12.5 km]\n2) Server B [40.0 km]\nsome header\n" =
      .ok [⟨1, "Server A", 12⟩, ⟨2, "Server B", 40⟩] ∧
    selectCandidates "" (fun _ => true) 20 [⟨1, "Server A", 12⟩, ⟨2, "Server B", 40⟩] =
      .ok [1] :=
  c9_scenario (fun _ => true)

theorem takeWhile_eq_self_of_all {α : Type} (p : α → Bool) (l : List α)
    (h : ∀ c ∈ l, p c = true) : l.takeWhile p = l := by
  induction l with
  | nil => rfl
  | cons c cs ih =>
    rw [List.takeWhile_cons, if_pos (h c (List.mem_cons_self _ _)),
      ih (fun x hx => h x (List.mem_cons_of_mem _ hx))]

/-- The Fscanf scan accepts "ERROR: HTTP Error 403: " followed by any
nonempty run of non-whitespace characters, assigning both operands. -/
theorem fscanf403_token (c0 : Char) (ms' : List Char)
    (hok : ∀ c ∈ c0 :: ms', isScanSpace c = false ∧ c ≠ '\n') :
    fscanfHTTPError ("ERROR: HTTP Error 403: ".toList ++ (c0 :: ms')) = some 403 := by
  have hskip : skipSpaces (c0 :: ms') = c0 :: ms' := by
    unfold skipSpaces
    rw [List.dropWhile_cons, if_neg (by simp [(hok c0 (List.mem_cons_self _ _)).1])]
  have htok : (c0 :: ms').takeWhile (fun c => !(isScanSpace c || c == '\n')) = c0 :: ms' := by
    apply takeWhile_eq_self_of_all
    intro c hc
    obtain ⟨h1, h2⟩ := hok c hc
    simp [h1, h2]
  have hverb : scanVerbS (c0 :: ms') = some (c0 :: ms', []) := by
    unfold scanVerbS
    simp only [hskip, htok]
    rw [if_neg (by simp)]
    rw [List.drop_length]
  have h1 : scanLit "ERROR:".toList ("ERROR: HTTP Error 403: ".toList ++ (c0 :: ms')) =
      some (" HTTP Error 403: ".toList ++ (c0 :: ms')) := rfl
  have h2 : scanFmtSpace (" HTTP Error 403: ".toList ++ (c0 :: ms')) =
      some ("HTTP Error 403: ".toList ++ (c0 :: ms')) := rfl
  have h3 : scanLit "HTTP".toList ("HTTP Error 403: ".toList ++ (c0 :: ms')) =
      some (" Error 403: ".toList ++ (c0 :: ms')) := rfl
  have h4 : scanFmtSpace (" Error 403: ".toList ++ (c0 :: ms')) =
      some ("Error 403: ".toList ++ (c0 :: ms')) := rfl
  have h5 : scanLit "Error".toList ("Error 403: ".toList ++ (c0 :: ms')) =
      some (" 403: ".toList ++ (c0 :: ms')) := rfl
  have h6 : scanFmtSpace (" 403: ".toList ++ (c0 :: ms')) =
      some ("403: ".toList ++ (c0 :: ms')) := rfl
  have h7 : scanVerbD ("403: ".toList ++ (c0 :: ms')) =
      some (403, ": ".toList ++ (c0 :: ms')) := rfl
  have h8 : scanLit ":".toList (": ".toList ++ (c0 :: ms')) =
      some (" ".toList ++ (c0 :: ms')) := rfl
  have h9 : scanFmtSpace (" ".toList ++ (c0 :: ms')) = some (skipSpaces (c0 :: ms')) := rfl
  simp only [fscanfHTTPError, h1, h2, h3, h4, h5, h6, h7, h8, h9, hskip, hverb,
    Option.bind_eq_bind, Option.some_bind, scanFmtNl]
  rfl

/-- C3, amended: a failed run whose scanned stderr lines (the line scanner
stops at a 64KiB-or-longer line, so later content is never seen) include a
line "ERROR: HTTP Error 403: <msg>" with <msg> a nonempty whitespace-free
token (fmt's %s verb matches a single space-separated token and whitespace
here is fmt's Unicode space set, so a message with an internal space —
ASCII or not — does not match, see the counterexample) is classified as
the retryable 403 failure, regardless of the other scanned stderr content;
and when no scanned stderr line scans as an HTTP 403 error line, the
failure is the generic one — non-matching lines are ignored and are not an
error by themselves. -/
theorem c3_http403_classification (stderr : String) :
    (∀ msg : String, msg ≠ "" → (∀ c ∈ msg.toList, isScanSpace c = false ∧ c ≠ '\n') →
      ("ERROR: HTTP Error 403: " ++ msg).toList ∈ goLines stderr.toList →
      classifyFailedRun stderr = .retryable403) ∧
    ((∀ l ∈ goLines stderr.toList, fscanfHTTPError l ≠ some 403) →
      classifyFailedRun stderr = .genericFailure) := by
  constructor
  · intro msg hne hok hmem
    have hdata : ("ERROR: HTTP Error 403: " ++ msg).toList =
        "ERROR: HTTP Error 403: ".toList ++ msg.toList := by
      show ("ERROR: HTTP Error 403: " ++ msg).data = _
      rw [String.data_append]
      rfl
    have hnil : msg.toList ≠ [] := by
      intro h
      apply hne
      cases msg with
      | mk data => exact congrArg String.mk h
    obtain ⟨c0, ms', hcons⟩ := List.exists_cons_of_ne_nil hnil
    unfold classifyFailedRun
    rw [if_pos]
    apply List.any_eq_true.mpr
    refine ⟨_, hmem, ?_⟩
    apply decide_eq_true
    rw [hdata, hcons]
    exact fscanf403_token c0 ms' (hcons ▸ hok)
  · intro hnone
    unfold classifyFailedRun
    rw [if_neg]
    intro hany
    obtain ⟨l, hl, hp⟩ := List.any_eq_true.mp hany
    exact hnone l hl (of_decide_eq_true hp)

/-- Witness for c3_http403_classification: a one-token 403 message among
other stderr noise classifies as retryable. -/
theorem c3_http403_classification_witness :
    ("Forbidden" : String) ≠ "" ∧
    (∀ c ∈ ("Forbidden" : String).toList, isScanSpace c = false ∧ c ≠ '\n') ∧
    ("ERROR: HTTP Error 403: " ++ "Forbidden").toList ∈
      goLines ("some noise\nERROR: HTTP Error 403: Forbidden\nmore noise\n").toList ∧
    classifyFailedRun "some noise\nERROR: HTTP Error 403: Forbidden\nmore noise\n" =
      .retryable403 :=
  ⟨by decide, by decide, by decide,
   (c3_http403_classification "some noise\nERROR: HTTP Error 403: Forbidden\nmore noise\n").1
     "Forbidden" (by decide) (by decide) (by decide)⟩

/-- C3, counterexample: "ERROR: HTTP Error 403: Forbidden access" has the
claimed shape "ERROR: HTTP Error 403: <msg>" (msg = "Forbidden access"),
yet the run is classified as the generic failure, not the retryable 403:
the %s verb stops at the space inside the message and the trailing format
newline then fails to match, so Fscanf reports an error and the line is
skipped. -/
theorem c3_counterexample :
    specHTTPErrorShape 403 "Forbidden access" = "ERROR: HTTP Error 403: Forbidden access" ∧
    goLines ("ERROR: HTTP Error 403: Forbidden access\n").toList =
      [("ERROR: HTTP Error 403: Forbidden access").toList] ∧
    classifyFailedRun "ERROR: HTTP Error 403: Forbidden access\n" = .genericFailure :=
  ⟨by decide, by decide, by decide⟩

/-- C4, counterexample: the empty JSON object is well-formed structured
data missing the download, upload and ping fields, yet json.Unmarshal
succeeds on it with the zero-valued measurement record instead of failing
with a decode error. -/
theorem c4_counterexample :
    parseJSON "\x7b\x7d" = some (.jobj []) ∧
    unmarshalSpeedTestResult "\x7b\x7d" = .ok ({} : speedTestResult) ∧
    ({} : speedTestResult).Download = 0 ∧ ({} : speedTestResult).Upload = 0 ∧
    ({} : speedTestResult).Ping = 0 :=
  ⟨rfl, rfl, rfl, rfl, rfl⟩

/-- C4, amended: a payload that is not well-formed structured data always
fails hard — a decoded result is only ever produced from a payload that
parses as JSON, and a syntax error yields the unmarshal error and no
(even partial) record; but a well-formed payload missing the required
numeric fields does NOT fail: the missing fields decode to their zero
values, as the empty object shows. -/
theorem c4_decode_requires_wellformed :
    (∀ payload r, unmarshalSpeedTestResult payload = .ok r → (parseJSON payload).isSome = true) ∧
    (∀ payload, parseJSON payload = none →
      unmarshalSpeedTestResult payload =
        .error "failed to unmarshal JSON result: syntax error") ∧
    unmarshalSpeedTestResult "\x7b\x7d" = .ok ({} : speedTestResult) := by
  refine ⟨?_, ?_, rfl⟩
  · intro payload r h
    unfold unmarshalSpeedTestResult at h
    cases hp : parseJSON payload with
    | none =>
      rw [hp] at h
      exact absurd h (by simp)
    | some v => simp [hp]
  · intro payload hp
    unfold unmarshalSpeedTestResult
    rw [hp]

/-- Witness for c4_decode_requires_wellformed at the empty object. -/
theorem c4_decode_requires_wellformed_witness :
    (parseJSON "\x7b\x7d").isSome = true :=
  c4_decode_requires_wellformed.1 "\x7b\x7d" ({} : speedTestResult) rfl

end SpeedtestExporter
